import Mathlib

/-!
Shallow embedding of the environment-resolution and execution-dispatch core of
the jackknife tool runner (jackknife/cli.py), together with theorems checking
the natural-language specification against it.

Python strings are modelled as Lean `String`, Python sets of package names as
`Finset String`, and the filesystem and subprocess world as explicit data
passed to each function.  Every definition mirrors the control flow of the
corresponding Python function; doc comments name the source symbol.
-/

namespace Jackknife

/-- State of a file on disk: absent, present but failing to open with an
I/O error, or present with the given list of lines. -/
inductive FileState where
  | missing
  | unreadable
  | content (lines : List String)
deriving DecidableEq

/-- Python whitespace as used by `str.strip` and `str.split`: space, tab,
newline, carriage return, vertical tab, form feed. -/
def isPyWhitespace (c : Char) : Bool :=
  c = ' ' || c = '\t' || c = '\n' || c = '\r' || c.toNat = 11 || c.toNat = 12

/-- Python `str.strip()` with no argument: remove leading and trailing
whitespace. -/
def pyStrip (s : String) : String :=
  String.mk (((s.data.dropWhile isPyWhitespace).reverse.dropWhile
    isPyWhitespace).reverse)

/-- Python `str.lower()` (restricted to the ASCII range; the package names
and pip-list output this model handles are ASCII). -/
def pyLower (s : String) : String :=
  String.mk (s.data.map Char.toLower)

/-- Whether a string starts with the `#` comment marker. -/
def startsWithHash (s : String) : Bool :=
  match s.data with
  | '#' :: _ => true
  | _ => false

/-- Whether a string ends with the given character. -/
def endsWithChar (s : String) (c : Char) : Bool :=
  s.data.getLast? == some c

/-- Python `s[:-1]`: the string without its final character (the empty
string stays empty). -/
def dropLastStr (s : String) : String :=
  String.mk s.data.dropLast

/-- The worker of `pysplit`: accumulate the current run of non-whitespace
characters (in reverse) and emit it at each whitespace boundary. -/
def pysplitAux : List Char → List Char → List String
  | [], acc => if acc.isEmpty then [] else [String.mk acc.reverse]
  | c :: cs, acc =>
    if isPyWhitespace c then
      if acc.isEmpty then pysplitAux cs []
      else String.mk acc.reverse :: pysplitAux cs []
    else pysplitAux cs (c :: acc)

/-- Python `str.split()` with no separator: split on whitespace runs and drop
empty pieces. -/
def pysplit (s : String) : List String :=
  pysplitAux s.data []

/-- The worker of `splitOnChar`. -/
def splitOnCharAux (sep : Char) : List Char → List Char → List String
  | [], acc => [String.mk acc.reverse]
  | c :: cs, acc =>
    if c = sep then String.mk acc.reverse :: splitOnCharAux sep cs []
    else splitOnCharAux sep cs (c :: acc)

/-- Python `str.split(sep)` for a one-character separator: split at every
occurrence, keeping empty pieces. -/
def splitOnChar (sep : Char) (s : String) : List String :=
  splitOnCharAux sep s.data []

/-- Python `s.split(c)[0]`: the prefix of `s` before the first occurrence of
`c` (all of `s` when `c` does not occur). -/
def cutBefore (s : String) (c : Char) : String :=
  String.mk (s.data.takeWhile (fun d => d ≠ c))

/-- Whether the pattern is a prefix of the list. -/
def prefixMatches : List Char → List Char → Bool
  | [], _ => true
  | _ :: _, [] => false
  | p :: ps, c :: cs => p = c && prefixMatches ps cs

/-- Whether the pattern occurs as a contiguous subsequence of the list
(Python `pat in s`). -/
def containsSeq (pat : List Char) : List Char → Bool
  | [] => pat.isEmpty
  | c :: cs => prefixMatches pat (c :: cs) || containsSeq pat cs

/-- The package-name extraction of `parse_requirements`
(cli.py line 124): strip everything from the first version operator
(`=`, `>`, `<`, `!`, `~`) or extras bracket (`[`) on, then strip whitespace. -/
def extractPackage (s : String) : String :=
  pyStrip (cutBefore (cutBefore (cutBefore (cutBefore (cutBefore (cutBefore
    s '=') '>') '<') '!') '~') '[')

/-- Add the package extracted from one merged logical line to the accumulated
requirement set, skipping it when extraction yields the empty string
(cli.py lines 124-127). -/
def finishPkg (s : String) (acc : Finset String) : Finset String :=
  let pkg := extractPackage s
  if pkg = "" then acc else insert (pyLower pkg) acc

/-- The line loop of `parse_requirements` (cli.py lines 110-127).  The first
argument holds a pending line that ended in a backslash and is awaiting its
continuation (`none` when no continuation is pending); the Python `while`
that merges continuations consumes lines from the same iterator via
`next(f, "")`, which this state machine mirrors.  A pending line at end of
file merges with the empty string, after which it can no longer end in a
backslash and is finalized. -/
def parseLinesAux : Option String → List String → Finset String
  | none, [] => ∅
  | none, raw :: rest =>
    let p := pyStrip raw
    if p = "" || startsWithHash p then parseLinesAux none rest
    else if endsWithChar p '\\' then parseLinesAux (some p) rest
    else finishPkg p (parseLinesAux none rest)
  | some s, [] => finishPkg (pyStrip (dropLastStr s) ++ " ") ∅
  | some s, l :: rest =>
    let merged := pyStrip (dropLastStr s) ++ " " ++ pyStrip l
    if endsWithChar merged '\\' then parseLinesAux (some merged) rest
    else finishPkg merged (parseLinesAux none rest)

/-- Parse the lines of a requirements file into a requirement set. -/
def parseLines (lines : List String) : Finset String :=
  parseLinesAux none lines

/-- The pure core of `parse_requirements` (cli.py lines 88-133): a missing
file yields the empty set, an I/O error at open is swallowed by the
`except OSError: pass` handler leaving the set empty, and file content is
parsed line by line. -/
def parseManifest : FileState → Finset String
  | .missing => ∅
  | .unreadable => ∅
  | .content lines => parseLines lines

/-- Association-list lookup, modelling a Python dict read. -/
def cacheLookup : List (String × Finset String) → String → Option (Finset String)
  | [], _ => none
  | (k, v) :: rest, p => if k = p then some v else cacheLookup rest p

/-- `parse_requirements` (cli.py lines 88-133) including the process-lifetime
`_requirements_cache`: on a cache hit the cached set is returned unchanged;
on a miss the file state is parsed and the result stored under the path.
Returns the requirement set together with the updated cache.  I/O failures
never escape: every file state maps to a set. -/
def parse_requirements (cache : List (String × Finset String)) (path : String)
    (fs : FileState) : Finset String × List (String × Finset String) :=
  match cacheLookup cache path with
  | some v => (v, cache)
  | none =>
    let r := parseManifest fs
    (r, (path, r) :: cache)

/-- Outcome of the `uv pip list` subprocess call issued by
`get_installed_packages` for one interpreter: exit 0 with the given stdout,
a non-zero exit, or `subprocess.run` itself raising an exception. -/
inductive ListOutcome where
  | ok (stdout : String)
  | nonzeroExit
  | raisesExc
deriving DecidableEq

/-- Parsing of `uv pip list` stdout (cli.py lines 168-173): strip the
output, split on newlines, drop the two header lines, and take the first
whitespace-separated field of each remaining nonempty line, lower-cased. -/
def parsePipList (out : String) : Finset String :=
  ((splitOnChar '\n' (pyStrip out)).drop 2).foldl
    (fun acc line =>
      match pysplit line with
      | [] => acc
      | p :: _ => insert (pyLower p) acc) ∅

/-- Result of `get_installed_packages`: either the `OSError` raised when the
`uv` executable is absent propagates to the caller, or a package set is
returned, `warned` recording whether the warning branch printed. -/
inductive GipResult where
  | raised
  | returned (pkgs : Finset String) (warned : Bool)
deriving DecidableEq

/-- `get_installed_packages` (cli.py lines 136-179) for one call, ignoring
the cache (which only replays an earlier result).  A missing `uv` executable
raises `OSError` before the `try` block, so it is not caught here; a
non-zero exit leaves the set empty and prints nothing; only an exception
from the subprocess call itself reaches the warning-printing handler. -/
def get_installed_packages (uvPresent : Bool) (lc : ListOutcome) : GipResult :=
  if uvPresent = false then .raised
  else
    match lc with
    | .ok out => .returned (parsePipList out) false
    | .nonzeroExit => .returned ∅ false
    | .raisesExc => .returned ∅ true

/-- An entry of the environments directory as seen by
`find_compatible_environment`: its name, whether it is a directory, whether
the interpreter binary exists inside it, and what listing its packages does. -/
structure EnvEntry where
  name : String
  isDir : Bool
  hasInterpreter : Bool
  listCall : ListOutcome
deriving DecidableEq

/-- The `for env_dir in ENVS_DIR.iterdir()` loop of
`find_compatible_environment` (cli.py lines 206-231): skip entries that are
not directories, the tool's own directory, and directories without an
interpreter binary; list the packages of the rest and return the first whose
set contains every requirement.  An exception raised by
`get_installed_packages` (missing `uv`) is caught by the surrounding
`except Exception`, which logs a warning and lets the function return
`None`. -/
def findCompatLoop (uvPresent : Bool) (toolName : String) (reqs : Finset String) :
    List EnvEntry → Option String
  | [] => none
  | e :: rest =>
    if e.isDir = false then findCompatLoop uvPresent toolName reqs rest
    else if e.name = toolName then findCompatLoop uvPresent toolName reqs rest
    else if e.hasInterpreter = false then findCompatLoop uvPresent toolName reqs rest
    else
      match get_installed_packages uvPresent e.listCall with
      | .raised => none
      | .returned pkgs _ =>
        if reqs ⊆ pkgs then some e.name else findCompatLoop uvPresent toolName reqs rest

/-- `find_compatible_environment` (cli.py lines 182-233): `None` when
sharing is disabled, `None` when the tool's requirement set is empty,
otherwise the loop over the environment directory entries (given in
iteration order). -/
def find_compatible_environment (share uvPresent : Bool) (toolName : String)
    (manifest : FileState) (envs : List EnvEntry) : Option String :=
  if share = false then none
  else
    let reqs := parseManifest manifest
    if reqs = ∅ then none
    else findCompatLoop uvPresent toolName reqs envs

/-- Spec-side eligibility of an environment entry: an existing directory,
not the tool's own, with an interpreter binary present. -/
def eligibleEnv (toolName : String) (e : EnvEntry) : Bool :=
  e.isDir && !(e.name == toolName) && e.hasInterpreter

/-- The installed-package set of an environment entry when `uv` is present:
the parsed listing on success and the empty set on any listing failure. -/
def envInstalled (e : EnvEntry) : Finset String :=
  match e.listCall with
  | .ok out => parsePipList out
  | _ => ∅

/-- Restatement of the compatibility contract in the words of the spec
(section 4.3): `None` if sharing is disabled or the requirement set is
empty; otherwise the first eligible environment, in iteration order, whose
installed-package set is a superset of the requirements. -/
def find_compatible_spec (share : Bool) (toolName : String)
    (manifest : FileState) (envs : List EnvEntry) : Option String :=
  let reqs := parseManifest manifest
  if share = false then none
  else if reqs = ∅ then none
  else
    ((envs.filter (eligibleEnv toolName)).find?
      (fun e => decide (reqs ⊆ envInstalled e))).map EnvEntry.name

/-- Outcome of one provisioning helper call: success, a structured fatal
exit (the helper raised `typer.Exit`, as `_create_new_environment` and
`_install_dependencies` do on every failure they handle), or an unexpected
exception of any other class escaping the helper. -/
inductive StepOutcome where
  | success
  | exitErr
  | otherErr
deriving DecidableEq

/-- The world `setup_environment` acts on for one tool: whether the
interpreter binary already exists at the expected path, the result of the
`find_compatible_environment` call, whether the symlink/junction attempt
raises, the outcomes of venv creation and dependency installation, whether
the interpreter binary exists after creation and installation, and whether a
failed create/install left files behind at the environment path. -/
structure SetupWorld where
  interpreterExists : Bool
  compatible : Option String
  linkFails : Bool
  createOutcome : StepOutcome
  installOutcome : StepOutcome
  interpreterAfter : Bool
  halfBuiltLeft : Bool
deriving DecidableEq

/-- How `setup_environment` ended: returning the pre-existing interpreter,
returning a freshly linked environment, returning a freshly created primary
environment, or propagating `typer.Exit`. -/
inductive SetupOutcome where
  | returnedExisting
  | returnedLinked
  | returnedCreated
  | fatalExit
deriving DecidableEq

/-- Observable trace of one `setup_environment` call: its outcome, which
helpers were invoked, and whether `shutil.rmtree` ran on the environment
path. -/
structure SetupTrace where
  outcome : SetupOutcome
  linkAttempted : Bool
  createAttempted : Bool
  installAttempted : Bool
  envRemoved : Bool
deriving DecidableEq

/-- Steps 3-5 of `setup_environment` (cli.py lines 390-418): create the
environment (both the structured exit and an unexpected exception propagate
as a fatal exit with no cleanup), install dependencies (the structured exit
propagates with no cleanup; only an unexpected exception triggers
`shutil.rmtree` before the fatal exit), then verify the interpreter binary
exists (missing is a fatal exit with no cleanup).  `linkA` records whether a
link attempt preceded this path, for the trace only. -/
def provisionFresh (w : SetupWorld) (linkA : Bool) : SetupTrace :=
  match w.createOutcome with
  | .exitErr => ⟨.fatalExit, linkA, true, false, false⟩
  | .otherErr => ⟨.fatalExit, linkA, true, false, false⟩
  | .success =>
    match w.installOutcome with
    | .exitErr => ⟨.fatalExit, linkA, true, true, false⟩
    | .otherErr => ⟨.fatalExit, linkA, true, true, true⟩
    | .success =>
      if w.interpreterAfter then ⟨.returnedCreated, linkA, true, true, false⟩
      else ⟨.fatalExit, linkA, true, true, false⟩

/-- `setup_environment` (cli.py lines 364-418).  Step 1: an existing
interpreter binary returns immediately.  Step 2: with a compatible
environment, attempt the link; the `typer.Exit` raised by
`_link_to_compatible_environment` on failure is a `RuntimeError` subclass,
so the `except Exception` handler catches it and falls through to the
fresh-creation path.  Steps 3-5 are `provisionFresh`. -/
def setup_environment (w : SetupWorld) : SetupTrace :=
  if w.interpreterExists then ⟨.returnedExisting, false, false, false, false⟩
  else
    match w.compatible with
    | some _ =>
      if w.linkFails then provisionFresh w true
      else ⟨.returnedLinked, true, false, false, false⟩
    | none => provisionFresh w false

/-- Whether the environment directory holds a half-built environment after
the call: the leftovers of a failed step survive exactly when `rmtree` did
not run. -/
def envDirAfter (w : SetupWorld) : Bool :=
  if (setup_environment w).envRemoved then false else w.halfBuiltLeft

/-- The chain loop of `main` (cli.py lines 726-765), with each tool
abstracted to the exit code `run_single_tool` returns for it.  The
accumulator is `final_exit_code`; the result pairs the final code with the
codes of the tools that actually ran, in order. -/
def chainLoop (continueOnError : Bool) : Int → List Int → Int × List Int
  | final, [] => (final, [])
  | final, c :: rest =>
    if c ≠ 0 then
      if continueOnError then
        let r := chainLoop continueOnError c rest
        (r.1, c :: r.2)
      else (c, [c])
    else
      let r := chainLoop continueOnError final rest
      (r.1, c :: r.2)

/-- Chain execution of `main`: the loop started with `final_exit_code = 0`. -/
def chainExecute (continueOnError : Bool) (codes : List Int) : Int × List Int :=
  chainLoop continueOnError 0 codes

/-- The last non-zero element of a list of exit codes, or 0 when there is
none. -/
def lastNonzero (codes : List Int) : Int :=
  codes.foldl (fun acc c => if c ≠ 0 then c else acc) 0

/-- Restatement of the chain policy in the words of the spec (section 4.6):
with continue-on-error every entry runs and the result is the last non-zero
code; without it execution stops at the first non-zero code, which becomes
the result. -/
def chainSpec (continueOnError : Bool) (codes : List Int) : Int × List Int :=
  if continueOnError then (lastNonzero codes, codes)
  else
    match codes.dropWhile (fun c => c = 0) with
    | [] => (0, codes)
    | c :: _ => (c, codes.takeWhile (fun c => c = 0) ++ [c])

/-- The character loop of `parse_tool_chain` (cli.py lines 498-517): build
up the comma-separated parts, treating a comma as a separator only outside
square brackets; an empty part between separators is dropped. -/
def splitChainAux : List Char → String → Bool → List String → List String
  | [], current, _, parts =>
    if current.data.isEmpty then parts else parts ++ [current]
  | c :: cs, current, inBrackets, parts =>
    if c = '[' then splitChainAux cs (current.push '[') true parts
    else if c = ']' then splitChainAux cs (current.push ']') false parts
    else if c = ',' ∧ inBrackets = false then
      if current.data.isEmpty then splitChainAux cs "" inBrackets parts
      else splitChainAux cs "" inBrackets (parts ++ [current])
    else splitChainAux cs (current.push c) inBrackets parts

/-- The per-character escaping loop of CPython `subprocess.list2cmdline`
for one argument: `bs` counts buffered backslashes; a quote doubles the
buffered backslashes and is itself escaped; any other character flushes the
buffer unchanged; at the end the buffer is flushed, doubled again with a
closing quote when the argument needed quoting. -/
def escAux (needquote : Bool) : List Char → Nat → List Char
  | [], bs =>
    List.replicate bs '\\' ++
      (if needquote then List.replicate bs '\\' ++ ['"'] else [])
  | c :: cs, bs =>
    if c = '\\' then escAux needquote cs (bs + 1)
    else if c = '"' then
      List.replicate (2 * bs + 1) '\\' ++ '"' :: escAux needquote cs 0
    else List.replicate bs '\\' ++ c :: escAux needquote cs 0

/-- CPython `subprocess.list2cmdline` treatment of one argument: quote it
when it contains a space or tab or is empty, escaping per `escAux`. -/
def cmdlineArg (s : String) : String :=
  let needquote := s.data.contains ' ' || s.data.contains '\t' || s.data.isEmpty
  let body := escAux needquote s.data 0
  if needquote then String.mk ('"' :: body) else String.mk body

/-- Joining with single spaces, as `list2cmdline` does by appending a space
before every argument after the first. -/
def joinSpace : List String → String
  | [] => ""
  | [s] => s
  | s :: rest => s ++ " " ++ joinSpace rest

/-- CPython `subprocess.list2cmdline`: the escaped arguments joined by
single spaces. -/
def list2cmdline (seq : List String) : String :=
  joinSpace (seq.map cmdlineArg)

/-- The per-part processing of `parse_tool_chain` (cli.py lines 520-535):
a part containing `[` and ending in `]` is split at the first `[` into a
name and an argument string (closing bracket dropped); the argument string
is whitespace-split, passed through `list2cmdline`, and whitespace-split
again (`list2cmdline` cannot raise on string input, so the naive-split
fallback in the `except` clause is unreachable); other parts carry no
arguments.  Names are whitespace-stripped. -/
def parseChainPart (part : String) : String × List String :=
  if part.data.contains '[' && endsWithChar part ']' then
    let name := String.mk (part.data.takeWhile (fun c => c ≠ '['))
    let argsStr := String.mk ((part.data.dropWhile (fun c => c ≠ '[')).tail)
    (pyStrip name, pysplit (list2cmdline (pysplit (dropLastStr argsStr))))
  else (pyStrip part, [])

/-- `parse_tool_chain` (cli.py lines 481-535). -/
def parse_tool_chain (s : String) : List (String × List String) :=
  (splitChainAux s.data "" false []).map parseChainPart

/-- A Python value as far as the exit-code logic of `run_single_tool`
observes it: an integer, `None`, or a string. -/
inductive PyValue where
  | intVal (n : Int)
  | noneVal
  | strVal (s : String)
deriving DecidableEq

/-- How the in-process call of a decorator-marked entry point ends: a
returned value, a raised `SystemExit` carrying a code, any other exception,
or a keyboard interrupt. -/
inductive ToolOutcome where
  | returns (v : PyValue)
  | sysExit (code : PyValue)
  | raisesExc
  | interrupted
deriving DecidableEq

/-- The exit-code normalization applied by `run_single_tool` to an
in-process result or `SystemExit` code (cli.py lines 614-618): integers
pass through verbatim, everything else becomes 0. -/
def pyExitCode : PyValue → Int
  | .intVal n => n
  | .noneVal => 0
  | .strVal _ => 0

/-- The world one `run_single_tool` call acts on: the ambient `sys.argv`,
whether the tool script exists, whether `setup_environment` succeeds,
whether the script imports as a module, whether a decorator-marked entry
point is found, the script path and tool arguments, the in-process outcome,
and the subprocess result (its exit code, and whether a keyboard interrupt
arrived while it ran). -/
structure RunWorld where
  argv : List String
  toolFound : Bool
  setupOk : Bool
  importOk : Bool
  decorated : Bool
  scriptPath : String
  toolArgs : List String
  outcome : ToolOutcome
  subprocCode : Int
  subprocInterrupt : Bool
deriving DecidableEq

/-- The in-process branch of `run_single_tool` (cli.py lines 608-632),
entered with `sys.argv` set to the script path followed by the tool
arguments.  The inner `except SystemExit` normalizes the carried code; any
other exception propagates to the outer `except Exception` (exit 1), and a
keyboard interrupt to the outer `except KeyboardInterrupt` (exit 130). -/
def inProcessCode : ToolOutcome → Int
  | .returns v => pyExitCode v
  | .sysExit v => pyExitCode v
  | .raisesExc => 1
  | .interrupted => 130

/-- `run_single_tool` (cli.py lines 538-668), returning the exit code
together with the ambient `sys.argv` observed after the call.  The missing-
script and failed-setup returns happen before `sys.argv` is touched; every
path through the `try` block runs the `finally` clause, which restores the
saved copy of the original vector. -/
def run_single_tool (w : RunWorld) : Int × List String :=
  if w.toolFound = false then (1, w.argv)
  else if w.setupOk = false then (1, w.argv)
  else
    let original := w.argv
    if w.importOk && w.decorated then
      (inProcessCode w.outcome, original)
    else
      if w.subprocInterrupt then (130, original)
      else (w.subprocCode, original)

/-- The value `run_single_tool` assigns to `sys.argv` while the in-process
entry point runs (cli.py line 611): the script path followed by the tool
arguments.  The `finally` clause replaces it with the saved copy before the
function returns, which is why it does not appear in the result of
`run_single_tool`. -/
def argvDuringInProcess (w : RunWorld) : List String :=
  w.scriptPath :: w.toolArgs

/-- The chain loop with continue-on-error runs every entry and folds the
last non-zero code over the accumulator. -/
theorem chainLoop_continue (codes : List Int) :
    ∀ a : Int, chainLoop true a codes =
      (codes.foldl (fun acc c => if c ≠ 0 then c else acc) a, codes) := by
  induction codes with
  | nil => intro a; rfl
  | cons c rest ih =>
    intro a
    by_cases h : c = 0
    · subst h; simp [chainLoop, ih]
    · simp [chainLoop, h, ih]

/-- The chain loop without continue-on-error stops at the first non-zero
code, which replaces the accumulator. -/
theorem chainLoop_stop (codes : List Int) :
    ∀ a : Int, chainLoop false a codes =
      match codes.dropWhile (fun c => c = 0) with
      | [] => (a, codes)
      | c :: _ => (c, codes.takeWhile (fun c => c = 0) ++ [c]) := by
  induction codes with
  | nil => intro a; rfl
  | cons c rest ih =>
    intro a
    by_cases h : c = 0
    · subst h
      simp only [chainLoop, List.dropWhile, List.takeWhile, decide_True]
      rw [ih a]
      cases hrest : rest.dropWhile (fun c => c = 0) <;> simp
    · simp [chainLoop, h, List.dropWhile, List.takeWhile]

/-- C2: tools in a chain run strictly left to right; without
continue-on-error execution stops at the first non-zero exit code, which
becomes the overall code; with continue-on-error every tool runs and the
overall code is the last non-zero one (0 when all succeed).  The second
conjunct states that the executed tools form a prefix of the chain. -/
theorem chainExecute_spec (cont : Bool) (codes : List Int) :
    chainExecute cont codes = chainSpec cont codes ∧
    (chainExecute cont codes).2 <+: codes := by
  cases cont
  · have h := chainLoop_stop codes 0
    constructor
    · simp only [chainExecute, chainSpec, lastNonzero, if_neg Bool.false_ne_true]
      rw [h]
    · simp only [chainExecute]
      rw [h]
      cases hdrop : codes.dropWhile (fun c => c = 0) with
      | nil => simp
      | cons c tl =>
        refine ⟨tl, ?_⟩
        have hsplit := List.takeWhile_append_dropWhile (p := fun c => decide (c = 0))
          (l := codes)
        rw [hdrop] at hsplit
        simpa using hsplit
  · have h := chainLoop_continue codes 0
    constructor
    · simp only [chainExecute, chainSpec, lastNonzero]
      rw [h]
      simp
    · simp only [chainExecute]
      rw [h]

/-- With the external executable present, the directory loop of
`find_compatible_environment` returns the name of the first eligible entry
whose installed-package set contains every requirement. -/
theorem findCompatLoop_eq (toolName : String) (reqs : Finset String)
    (envs : List EnvEntry) :
    findCompatLoop true toolName reqs envs =
      ((envs.filter (eligibleEnv toolName)).find?
        (fun e => decide (reqs ⊆ envInstalled e))).map EnvEntry.name := by
  induction envs with
  | nil => rfl
  | cons e rest ih =>
    by_cases hd : e.isDir = false
    · simp [findCompatLoop, hd, eligibleEnv, ih]
    · have hd2 : e.isDir = true := by revert hd; cases e.isDir <;> simp
      by_cases hn : e.name = toolName
      · simp [findCompatLoop, hd2, hn, eligibleEnv, ih]
      · by_cases hi : e.hasInterpreter = false
        · simp [findCompatLoop, hd2, hn, hi, eligibleEnv, ih]
        · have hi2 : e.hasInterpreter = true := by
            revert hi; cases e.hasInterpreter <;> simp
          cases hlc : e.listCall with
          | ok out =>
            by_cases hs : reqs ⊆ parsePipList out
            · simp [findCompatLoop, hd2, hn, hi2, get_installed_packages, hlc,
                hs, eligibleEnv, envInstalled]
            · simp [findCompatLoop, hd2, hn, hi2, get_installed_packages, hlc,
                hs, eligibleEnv, envInstalled, ih]
          | nonzeroExit =>
            by_cases hs : reqs ⊆ (∅ : Finset String)
            · simp [findCompatLoop, hd2, hn, hi2, get_installed_packages, hlc,
                hs, eligibleEnv, envInstalled]
            · simp [findCompatLoop, hd2, hn, hi2, get_installed_packages, hlc,
                hs, eligibleEnv, envInstalled, ih]
          | raisesExc =>
            by_cases hs : reqs ⊆ (∅ : Finset String)
            · simp [findCompatLoop, hd2, hn, hi2, get_installed_packages, hlc,
                hs, eligibleEnv, envInstalled]
            · simp [findCompatLoop, hd2, hn, hi2, get_installed_packages, hlc,
                hs, eligibleEnv, envInstalled, ih]

/-- C1: with the external executable present, `find_compatible_environment`
returns `None` when sharing is disabled or the tool's requirement set is
empty; otherwise it scans the environment directory entries in order,
skipping non-directories, the tool's own directory, and directories whose
interpreter binary is absent, and returns the first remaining environment
whose installed-package set is a superset of the requirement set, or `None`
when none qualifies. -/
theorem find_compatible_environment_correct (share : Bool) (toolName : String)
    (manifest : FileState) (envs : List EnvEntry) :
    find_compatible_environment share true toolName manifest envs =
      find_compatible_spec share toolName manifest envs := by
  cases share
  · rfl
  · simp only [find_compatible_environment, find_compatible_spec]
    by_cases h : parseManifest manifest = ∅
    · simp [h]
    · simp [h, findCompatLoop_eq]

/-- C3 counterexample: a world where provisioning reaches the create step,
the create helper fails with its structured fatal exit, and a half-built
environment directory is left behind.  `setup_environment` propagates the
fatal exit without removing the directory, so the post-state still holds
the half-built environment — the claim that any fatal create/install/verify
failure removes the directory is false on this input. -/
theorem setup_create_failure_keeps_halfbuilt_dir :
    (setup_environment ⟨false, none, false, .exitErr, .success, false, true⟩).outcome
        = .fatalExit ∧
    (setup_environment ⟨false, none, false, .exitErr, .success, false, true⟩).createAttempted
        = true ∧
    (setup_environment ⟨false, none, false, .exitErr, .success, false, true⟩).envRemoved
        = false ∧
    envDirAfter ⟨false, none, false, .exitErr, .success, false, true⟩ = true := by
  refine ⟨rfl, rfl, rfl, rfl⟩

/-- C3 amended: `setup_environment` removes the environment directory
exactly when provisioning reaches the dependency-installation step and that
step fails with an unexpected exception (one other than the structured
fatal exit its helper raises); fatal create failures, structured install
failures, and verify failures propagate without removing the directory. -/
theorem setup_environment_removal_iff (w : SetupWorld) :
    (setup_environment w).envRemoved = true ↔
      (w.interpreterExists = false ∧
       (w.compatible.isSome = true → w.linkFails = true) ∧
       w.createOutcome = .success ∧ w.installOutcome = .otherErr) := by
  obtain ⟨ie, comp, lf, co, io, ia, hb⟩ := w
  cases ie <;> cases comp <;> cases lf <;> cases co <;> cases io <;> cases ia <;>
    simp [setup_environment, provisionFresh]

/-- C5: when an interpreter is not yet present, a compatible environment was
found, and the link attempt fails, `setup_environment` does not fail the
invocation at the link step: the raised exit is caught and provisioning
falls through to creating a fresh dedicated primary environment. -/
theorem setup_link_failure_falls_through (w : SetupWorld) (n : String)
    (h1 : w.interpreterExists = false) (h2 : w.compatible = some n)
    (h3 : w.linkFails = true) :
    setup_environment w = provisionFresh w true ∧
    (setup_environment w).createAttempted = true := by
  have hs : setup_environment w = provisionFresh w true := by
    simp [setup_environment, h1, h2, h3]
  refine ⟨hs, ?_⟩
  rw [hs]
  obtain ⟨ie, comp, lf, co, io, ia, hb⟩ := w
  cases co <;> cases io <;> cases ia <;> simp [provisionFresh]

/-- C5 witness: a concrete world with a compatible environment and a
failing link attempt falls through to fresh creation. -/
theorem setup_link_failure_falls_through_witness :
    setup_environment ⟨false, some "other", true, .success, .success, true, false⟩ =
      provisionFresh ⟨false, some "other", true, .success, .success, true, false⟩ true ∧
    (setup_environment
      ⟨false, some "other", true, .success, .success, true, false⟩).createAttempted = true :=
  setup_link_failure_falls_through
    ⟨false, some "other", true, .success, .success, true, false⟩ "other" rfl rfl rfl

/-- C8: an environment whose interpreter binary already exists short-circuits
`setup_environment` with no link, creation, or installation; a linked
environment never receives dependency installation; and installation is
attempted only on the fresh-creation path, never on the existing or linked
outcomes. -/
theorem setup_environment_invariants (w : SetupWorld) :
    (w.interpreterExists = true →
      setup_environment w = ⟨.returnedExisting, false, false, false, false⟩) ∧
    ((setup_environment w).outcome = .returnedLinked →
      (setup_environment w).installAttempted = false ∧
      (setup_environment w).createAttempted = false) ∧
    ((setup_environment w).installAttempted = true →
      (setup_environment w).createAttempted = true ∧
      (setup_environment w).outcome ≠ .returnedLinked ∧
      (setup_environment w).outcome ≠ .returnedExisting) := by
  obtain ⟨ie, comp, lf, co, io, ia, hb⟩ := w
  cases ie <;> cases comp <;> cases lf <;> cases co <;> cases io <;> cases ia <;>
    simp [setup_environment, provisionFresh]

/-- C8 witness: with the interpreter already present, `setup_environment`
returns the existing environment untouched. -/
theorem setup_environment_invariants_witness :
    setup_environment ⟨true, none, false, .success, .success, true, false⟩ =
      ⟨.returnedExisting, false, false, false, false⟩ :=
  (setup_environment_invariants
    ⟨true, none, false, .success, .success, true, false⟩).1 rfl

/-- With the external executable missing, the directory loop never returns
an environment: the first probed entry raises, and the surrounding handler
turns the scan into `None`. -/
theorem findCompatLoop_no_uv (toolName : String) (reqs : Finset String)
    (envs : List EnvEntry) :
    findCompatLoop false toolName reqs envs = none := by
  induction envs with
  | nil => rfl
  | cons e rest ih =>
    by_cases hd : e.isDir = false
    · simp [findCompatLoop, hd, ih]
    · have hd2 : e.isDir = true := by revert hd; cases e.isDir <;> simp
      by_cases hn : e.name = toolName
      · simp [findCompatLoop, hd2, hn, ih]
      · by_cases hi : e.hasInterpreter = false
        · simp [findCompatLoop, hd2, hn, hi, ih]
        · have hi2 : e.hasInterpreter = true := by
            revert hi; cases e.hasInterpreter <;> simp
          simp [findCompatLoop, hd2, hn, hi2, get_installed_packages]

/-- C4 counterexample: with the external executable missing,
`get_installed_packages` raises the `OSError` built before its `try` block
instead of yielding an empty set with a warning; and a non-zero exit of the
list call yields an empty set with no warning printed. -/
theorem get_installed_packages_counterexample :
    get_installed_packages false (.ok "") = .raised ∧
    get_installed_packages true .nonzeroExit = .returned ∅ false :=
  ⟨rfl, rfl⟩

/-- C4 amended: a missing external executable makes `get_installed_packages`
raise; the caller's catch-all handler logs a warning and
`find_compatible_environment` returns `None`, so the run continues.  A
non-zero exit of the list call yields an empty set with no warning, and the
scan skips that environment and continues with the rest; only an exception
from the subprocess call itself reaches the warning branch inside
`get_installed_packages`. -/
theorem get_installed_packages_amended :
    (∀ lc : ListOutcome, get_installed_packages false lc = .raised) ∧
    get_installed_packages true .nonzeroExit = .returned ∅ false ∧
    get_installed_packages true .raisesExc = .returned ∅ true ∧
    (∀ (share : Bool) (toolName : String) (manifest : FileState)
        (envs : List EnvEntry),
      find_compatible_environment share false toolName manifest envs = none) ∧
    (∀ (toolName : String) (reqs : Finset String) (e : EnvEntry)
        (rest : List EnvEntry),
      e.listCall = .nonzeroExit → reqs ≠ ∅ →
      findCompatLoop true toolName reqs (e :: rest) =
        findCompatLoop true toolName reqs rest) := by
  refine ⟨fun lc => rfl, rfl, rfl, ?_, ?_⟩
  · intro share toolName manifest envs
    cases share
    · rfl
    · simp only [find_compatible_environment]
      by_cases h : parseManifest manifest = ∅
      · simp [h]
      · simp [h, findCompatLoop_no_uv]
  · intro toolName reqs e rest hlc hne
    by_cases hd : e.isDir = false
    · simp [findCompatLoop, hd]
    · have hd2 : e.isDir = true := by revert hd; cases e.isDir <;> simp
      by_cases hn : e.name = toolName
      · simp [findCompatLoop, hd2, hn]
      · by_cases hi : e.hasInterpreter = false
        · simp [findCompatLoop, hd2, hn, hi]
        · have hi2 : e.hasInterpreter = true := by
            revert hi; cases e.hasInterpreter <;> simp
          have hsub : ¬ reqs ⊆ (∅ : Finset String) := by
            intro hcon
            exact hne (Finset.subset_empty.mp hcon)
          simp [findCompatLoop, hd2, hn, hi2, get_installed_packages, hlc, hsub]

/-- C4 amended witness: concrete instances of the amended behavior — a
missing executable raises, the resolver still returns `None`, and an
environment whose list call exits non-zero is skipped while the scan
continues. -/
theorem get_installed_packages_amended_witness :
    get_installed_packages false (.ok "x") = .raised ∧
    find_compatible_environment true false "newtool" .missing [] = none ∧
    findCompatLoop true "newtool" {"requests"}
        [⟨"other", true, true, .nonzeroExit⟩] =
      findCompatLoop true "newtool" {"requests"} [] :=
  ⟨get_installed_packages_amended.1 (.ok "x"),
   get_installed_packages_amended.2.2.2.1 true "newtool" .missing [],
   get_installed_packages_amended.2.2.2.2 "newtool" {"requests"}
     ⟨"other", true, true, .nonzeroExit⟩ [] rfl (Finset.singleton_ne_empty "requests")⟩

/-- C6: evaluation of `parse_tool_chain` at the chain from the spec example.
The comma inside the bracket pair does not split the entries and `tool2`
carries no arguments, but the bracketed argument list is first split naively
on whitespace and then passed through `subprocess.list2cmdline`, which
escapes quotes rather than parsing them, so `John Doe` is split across two
tokens with inserted backslash escapes and no single token contains the
text `John Doe`. -/
theorem parse_tool_chain_john_doe :
    parse_tool_chain "tool1[--name \"John Doe\"],tool2" =
      [("tool1", ["--name", "\\\"John", "Doe\\\""]), ("tool2", [])] ∧
    (["--name", "\\\"John", "Doe\\\""].all
      (fun t => !(containsSeq ("John Doe".data) t.data))) = true := by
  exact ⟨by decide, by decide⟩

/-- Parsing the lines of a manifest that holds only blank and comment lines
yields the empty requirement set. -/
theorem parseLinesAux_comments (lines : List String)
    (h : ∀ l ∈ lines, pyStrip l = "" ∨ startsWithHash (pyStrip l) = true) :
    parseLinesAux none lines = ∅ := by
  induction lines with
  | nil => rfl
  | cons l rest ih =>
    have hrest : ∀ x ∈ rest, pyStrip x = "" ∨ startsWithHash (pyStrip x) = true :=
      fun x hx => h x (List.mem_cons_of_mem l hx)
    rcases h l (List.mem_cons_self l rest) with h1 | h1
    · simp [parseLinesAux, h1, ih hrest]
    · simp [parseLinesAux, h1, ih hrest]

/-- C7: requirement parsing is idempotent — after one parse of a path, a
second parse of the same path returns the same set (served from the cache,
whatever the file then holds); a missing manifest and a manifest that fails
to open both yield the empty set, equal to the result of parsing a file of
only blank and comment lines; and every file state maps to a set, so I/O
failures never propagate to the caller. -/
theorem parse_requirements_properties (path : String) :
    (∀ (cache : List (String × Finset String)) (fs fs2 : FileState),
      (parse_requirements (parse_requirements cache path fs).2 path fs2).1 =
        (parse_requirements cache path fs).1) ∧
    (parse_requirements [] path .missing).1 = ∅ ∧
    (parse_requirements [] path .unreadable).1 = ∅ ∧
    (∀ lines : List String,
      (∀ l ∈ lines, pyStrip l = "" ∨ startsWithHash (pyStrip l) = true) →
      (parse_requirements [] path (.content lines)).1 = ∅) := by
  refine ⟨?_, rfl, rfl, ?_⟩
  · intro cache fs fs2
    cases h : cacheLookup cache path with
    | some v => simp [parse_requirements, h]
    | none =>
      have h1 : parse_requirements cache path fs =
          (parseManifest fs, (path, parseManifest fs) :: cache) := by
        simp [parse_requirements, h]
      rw [h1]
      simp [parse_requirements, cacheLookup]
  · intro lines hl
    have : parseManifest (.content lines) = ∅ := parseLinesAux_comments lines hl
    simp [parse_requirements, cacheLookup, this]

/-- C7 witness: concrete instances — a missing manifest parses to the empty
set, a comment-only manifest parses to the empty set, and re-parsing a path
already parsed returns the first result even though the file is gone. -/
theorem parse_requirements_properties_witness :
    (parse_requirements [] "tool.requirements.txt" .missing).1 = ∅ ∧
    (parse_requirements [] "tool.requirements.txt"
      (.content ["# pinned later", "   "])).1 = ∅ ∧
    (parse_requirements (parse_requirements [] "tool.requirements.txt"
        (.content ["requests"])).2 "tool.requirements.txt" .missing).1 =
      (parse_requirements [] "tool.requirements.txt" (.content ["requests"])).1 := by
  refine ⟨(parse_requirements_properties "tool.requirements.txt").2.1,
    (parse_requirements_properties "tool.requirements.txt").2.2.2
      ["# pinned later", "   "] ?_,
    (parse_requirements_properties "tool.requirements.txt").1 [] _ _⟩
  intro l hl
  simp only [List.mem_cons, List.not_mem_nil, or_false] at hl
  rcases hl with h | h
  · subst h; right; rfl
  · subst h; left; rfl

/-- C9: the ambient argument vector observed after `run_single_tool`
returns equals the vector observed before the call, on every path — missing
script, failed setup, in-process run (where it is reassigned and then
restored by the `finally` clause), subprocess run, interrupt, and error. -/
theorem run_single_tool_restores_argv (w : RunWorld) :
    (run_single_tool w).2 = w.argv := by
  obtain ⟨argv, tf, so, im, dm, sp, ta, oc, sc, si⟩ := w
  cases tf <;> cases so <;> cases im <;> cases dm <;> cases si <;>
    simp [run_single_tool]

/-- C10: for an in-process (decorator-marked) tool, the reported exit code
is the returned value or the `SystemExit` code when that value is an
integer, and 0 for any non-integer value such as `None` or a string. -/
theorem run_single_tool_inprocess_exit (w : RunWorld) (v : PyValue)
    (h1 : w.toolFound = true) (h2 : w.setupOk = true) (h3 : w.importOk = true)
    (h4 : w.decorated = true)
    (h5 : w.outcome = .returns v ∨ w.outcome = .sysExit v) :
    (run_single_tool w).1 = pyExitCode v := by
  rcases h5 with h5 | h5 <;>
    simp [run_single_tool, h1, h2, h3, h4, h5, inProcessCode]

/-- C10 witness: a decorated tool raising `SystemExit(None)` reports exit
code 0, and one returning the integer 7 reports 7. -/
theorem run_single_tool_inprocess_exit_witness :
    (run_single_tool ⟨["jackknife", "t"], true, true, true, true,
      "/tools/t.py", [], .sysExit .noneVal, 0, false⟩).1 = 0 ∧
    (run_single_tool ⟨["jackknife", "t"], true, true, true, true,
      "/tools/t.py", [], .returns (.intVal 7), 0, false⟩).1 = 7 :=
  ⟨run_single_tool_inprocess_exit _ .noneVal rfl rfl rfl rfl (Or.inr rfl),
   run_single_tool_inprocess_exit _ (.intVal 7) rfl rfl rfl rfl (Or.inl rfl)⟩

end Jackknife
